import Mathlib

/-!
Verification of the mumbai-hacks-finagentai frontend API layer and (spec-modelled)
agent core.  The definitions below are a shallow embedding of the JavaScript in
src/frontend and the unnamed frontend sources (api.js service, Chat page,
PortfolioChat page, ChatInput component), together with models of the Python
agent components (tool-result cache, conversation memory, planner retries,
session store) whose .py sources are not present in the repository snapshot and
are therefore modelled from the specification and the in-repo documentation.

Layout: all definitions first, then the lemmas and theorems.
-/

/- ===========================================================================
DEFINITIONS
=========================================================================== -/

/- ---------------------------------------------------------------------------
Shared model of the api.js error message construction.
--------------------------------------------------------------------------- -/

/-- Error message thrown by the fetch wrappers in api.js when `response.ok` is
false: `Server error ${status}${errorBody ? ... : ''}`.  `errorBody` is `none`
when reading the body threw (the JS code then leaves it as the empty string,
which is falsy, so nothing is appended). -/
def serverErrorMessage (status : Nat) (errorBody : Option String) : String :=
  let b := errorBody.getD ""
  "Server error " ++ toString status ++ (if b = "" then "" else ": " ++ b)

/- ---------------------------------------------------------------------------
C1: portfolioChatbotStream (api.js).  The SSE consumption loop is embedded as a
pure function over the list of decoded text segments returned by successive
reader.read() calls; after the list is exhausted the reader reports done.
JSON.parse of a `data: ` line payload is modelled by the `parse` argument
(`none` = JSON.parse threw, which the source catches and skips).
--------------------------------------------------------------------------- -/

/-- A parsed SSE payload `{error?, done?, content?}` as inspected by
`portfolioChatbotStream`.  `error`/`content` are `Option String`; the JS
truthiness tests treat an absent field and an empty string alike. -/
structure SSEData where
  error : Option String
  done : Bool
  content : Option String

/-- JS truthiness of an optional string field. -/
def jsStrTruthy : Option String → Bool
  | some s => decide (s ≠ "")
  | none => false

/-- Callback invocations observable by the consumer of
`portfolioChatbotStream`: `chunk` = onChunk, `complete` = onComplete,
`errorEvt` = onError. -/
inductive StreamEvent where
  | chunk (s : String)
  | complete
  | errorEvt (msg : String)
deriving Repr, DecidableEq

/-- A terminal callback: onComplete or onError. -/
def isTerminal : StreamEvent → Bool
  | StreamEvent.chunk _ => false
  | StreamEvent.complete => true
  | StreamEvent.errorEvt _ => true

/-- The `for (const line of lines)` body of `portfolioChatbotStream`: events
emitted while processing the complete lines of one read, and whether the loop
returned (terminal callback fired).  Mirrors the source order: `data.error`
first, then `data.done`, then `data.content && onChunk`. -/
def processLines (parse : String → Option SSEData) :
    List String → List StreamEvent × Bool
  | [] => ([], false)
  | line :: rest =>
    if line.startsWith "data: " then
      match parse (line.drop 6) with
      | some d =>
        if jsStrTruthy d.error then
          ([StreamEvent.errorEvt (d.error.getD "")], true)
        else if d.done then
          ([StreamEvent.complete], true)
        else if jsStrTruthy d.content then
          let r := processLines parse rest
          (StreamEvent.chunk (d.content.getD "") :: r.1, r.2)
        else
          processLines parse rest
      | none => processLines parse rest
    else
      processLines parse rest

/-- The `while (true)` reader loop of `portfolioChatbotStream`: each read value
is appended to the carry buffer, the buffer is split on newlines, the final
(possibly incomplete) line is kept as the new buffer, and the complete lines
are processed; when the reader reports done, onComplete fires. -/
def streamLoop (parse : String → Option SSEData) :
    List String → String → List StreamEvent
  | [], _ => [StreamEvent.complete]
  | v :: rest, buffer =>
    let lines := (buffer ++ v).splitOn "\n"
    let r := processLines parse lines.dropLast
    if r.2 then r.1 else r.1 ++ streamLoop parse rest (lines.getLastD "")

/-- `portfolioChatbotStream` (api.js): a non-ok HTTP reply throws, the outer
catch invokes onError with the thrown message (and rethrows to the caller);
otherwise the body stream is consumed by `streamLoop` starting from an empty
buffer. -/
def portfolioChatbotStream (ok : Bool) (status : Nat) (errorBody : Option String)
    (parse : String → Option SSEData) (reads : List String) : List StreamEvent :=
  if ok then streamLoop parse reads ""
  else [StreamEvent.errorEvt (serverErrorMessage status errorBody)]

/- ---------------------------------------------------------------------------
C7 / C2 / C9: marketChatbotSync (api.js) and the Chat page handleSend.
JSON.parse results are modelled by a small JSON value type; JS truthiness and
property access are embedded explicitly.
--------------------------------------------------------------------------- -/

/-- A JavaScript value as produced by `response.json()` (JSON.parse). -/
inductive JsValue where
  | jnull
  | jbool (b : Bool)
  | jnum (n : Int)
  | jstr (s : String)
  | jarr (elems : List JsValue)
  | jobj (fields : List (String × JsValue))

/-- JS truthiness of a JSON.parse result (`!data` in the source negates this):
null, false, 0 and the empty string are falsy; objects and arrays are truthy. -/
def jsTruthy : JsValue → Bool
  | JsValue.jnull => false
  | JsValue.jbool b => b
  | JsValue.jnum n => decide (n ≠ 0)
  | JsValue.jstr s => decide (s ≠ "")
  | JsValue.jarr _ => true
  | JsValue.jobj _ => true

/-- Property access `v.k`: `none` models JS `undefined` (non-objects and
missing keys); for duplicate keys JSON.parse keeps the last occurrence. -/
def getField (v : JsValue) (k : String) : Option JsValue :=
  match v with
  | JsValue.jobj fields => ((fields.filter (fun p => p.1 == k)).getLast?).map Prod.snd
  | _ => none

/-- The check `typeof data.response === 'string'` for field `k`. -/
def isStringField (v : JsValue) (k : String) : Bool :=
  match getField v k with
  | some (JsValue.jstr _) => true
  | _ => false

/-- Outcome of an async JS function: resolved value or thrown error message. -/
inductive SyncOutcome where
  | success (data : JsValue)
  | thrown (msg : String)

/-- The observable parts of one HTTP exchange as consumed by
`marketChatbotSync`: the `ok` flag and status of the reply, the error body
text (`none` when `response.text()` threw), and the result of
`response.json()` (`Except.error m` when parsing threw with message `m`). -/
structure SyncReply where
  ok : Bool
  status : Nat
  errorBody : Option String
  body : Except String JsValue

/-- `marketChatbotSync` (api.js): non-ok replies throw `Server error ...`; a
body that fails to parse rethrows the parse error; a parsed body that is falsy
or lacks a string `response` field throws `Invalid response format from
server`; otherwise the parsed object is returned.  The catch block only logs
and rethrows, so the thrown message is unchanged. -/
def marketChatbotSync (reply : SyncReply) : SyncOutcome :=
  if reply.ok = false then
    SyncOutcome.thrown (serverErrorMessage reply.status reply.errorBody)
  else
    match reply.body with
    | Except.error m => SyncOutcome.thrown m
    | Except.ok data =>
      if !jsTruthy data || !isStringField data "response" then
        SyncOutcome.thrown "Invalid response format from server"
      else
        SyncOutcome.success data

/- ---------------------------------------------------------------------------
C2 / C8 / C9: the Chat page (market chat) handleSend and handleEdit.
--------------------------------------------------------------------------- -/

/-- The apostrophe character (code point 39), spelled via its code point; used
to build string literals of the source that contain it. -/
def apostrophe : String := (Char.ofNat 39).toString

/-- JS `String.prototype.trim()`: strip whitespace from both ends (embedded
structurally over the character list so it evaluates; `Char.isWhitespace`
covers the space/tab/newline/carriage-return characters that occur here). -/
def jsTrim (s : String) : String :=
  String.mk ((s.data.dropWhile Char.isWhitespace).reverse.dropWhile
    Char.isWhitespace).reverse

/-- The fixed fallback bot reply in the Chat page handleSend, shown when the
backend returns an empty or whitespace-only response: the source literal is
`Sorry — I couldn't get a reply from the server. Please try again.` -/
def fallbackReply : String :=
  "Sorry — I couldn" ++ apostrophe ++ "t get a reply from the server. Please try again."

/-- The friendly error text built in the Chat page handleSend / handleEdit
catch blocks: the fixed sentence with `${e.message || ''}` appended (appending
`e.message || ''` equals appending the message itself, since a missing message
contributes the empty string). -/
def friendlyMarketMessage (errMsg : String) : String :=
  "Sorry, something went wrong while contacting the market assistant. " ++ errMsg

/-- The `botReply` computation in handleSend / handleEdit:
`data && typeof data.response === "string" && data.response.trim() ?
data.response : fallback`. -/
def botReply (data : JsValue) : String :=
  if jsTruthy data then
    match getField data "response" with
    | some (JsValue.jstr s) => if jsTrim s = "" then fallbackReply else s
    | _ => fallbackReply
  else fallbackReply

/-- The text of the single bot message appended by handleSend for one
completed send: the botReply on success, the friendly error text on failure. -/
def handleSendBotText (outcome : SyncOutcome) : String :=
  match outcome with
  | SyncOutcome.success data => botReply data
  | SyncOutcome.thrown m => friendlyMarketMessage m

/-- A transcript message `{role, text, timestamp}` of the chat pages. -/
structure Msg where
  role : String
  text : String
  timestamp : Nat
deriving Repr, DecidableEq

/-- The transcript after one completed send in the Chat page: the user message
is appended first, then exactly one bot message once the awaited call settles
(`t1`, `t2` are the two `new Date()` timestamps). -/
def handleSendTranscript (msgs : List Msg) (q : String) (outcome : SyncOutcome)
    (t1 t2 : Nat) : List Msg :=
  (msgs ++ [⟨"user", q, t1⟩]) ++ [⟨"bot", handleSendBotText outcome, t2⟩]

/-- The transcript truncation performed at the start of handleEdit (identical
in the Chat and PortfolioChat pages): `newMsgs = msgs.slice(0, index + 1);
newMsgs[index] = {...newMsgs[index], text: newText, timestamp: new Date()}`. -/
def handleEditTranscript (msgs : List Msg) (index : Nat) (newText : String)
    (now : Nat) : List Msg :=
  let newMsgs := msgs.take (index + 1)
  newMsgs.set index
    { (newMsgs.getD index ⟨"", "", 0⟩) with text := newText, timestamp := now }

/- ---------------------------------------------------------------------------
C10: the ChatInput component submit handler (ChatInput.jsx).
--------------------------------------------------------------------------- -/

/-- The state read by `submit`: the controlled textarea value and the
`loading` prop. -/
structure ChatInputState where
  text : String
  loading : Bool

/-- `submit` (ChatInput.jsx): `const t = text.trim(); if (!t || loading)
return; onSend(t); setText("")`.  The first component is the argument passed
to onSend (`none` = onSend not invoked), the second the state afterwards. -/
def submitChatInput (st : ChatInputState) : Option String × ChatInputState :=
  let t := jsTrim st.text
  if t = "" || st.loading then (none, st)
  else (some t, { st with text := "" })

/- ---------------------------------------------------------------------------
C4: tool result cache.  Modelled from the spec: `ToolResultCache` lives in
src/sharebot/agent/share_agent.py, which is not in the repository snapshot
(only the MVP-improvements document describing it is).  Spec basis: section 3
CacheEntry {key, value, expires_at} with lazy eviction on read, and section
4.2 Get/Put with a TTL; the document confirms a TTL-based cache (default 60s)
keyed by the tool call.
--------------------------------------------------------------------------- -/

/-- Modelled from the spec: a cache entry `{value, expires_at}` (section 3);
the key is kept alongside in the association list below. -/
structure CacheEntry where
  value : String
  expiresAt : Nat

/-- Modelled from the spec: `Get(key) -> (value, hit)` with lazy eviction — an
entry whose `expires_at` has passed is treated as absent (section 3, 4.2). -/
def cacheGet (cache : List (String × CacheEntry)) (key : String) (now : Nat) :
    Option String :=
  match cache.lookup key with
  | some e => if now < e.expiresAt then some e.value else none
  | none => none

/-- Modelled from the spec: `Put(key, value, ttl)` storing `expires_at`;
prepending shadows any older entry for the same key. -/
def cachePut (cache : List (String × CacheEntry)) (key value : String)
    (expiresAt : Nat) : List (String × CacheEntry) :=
  (key, CacheEntry.mk value expiresAt) :: cache

/-- Modelled from the spec: the execution engine resolving one idempotent call
(section 4.3): consult the cache; on a miss invoke the upstream tool and
populate the cache with TTL `ttl`.  Returns the result, the new cache, and the
number of upstream invocations this call caused (0 or 1). -/
def execCached (cache : List (String × CacheEntry)) (key upstreamValue : String)
    (ttl now : Nat) : String × List (String × CacheEntry) × Nat :=
  match cacheGet cache key now with
  | some v => (v, cache, 0)
  | none => (upstreamValue, cachePut cache key upstreamValue (now + ttl), 1)

/-- Modelled from the spec: a sequence of identical idempotent calls observed
by the engine at the given times; returns the total number of upstream
invocations. -/
def runIdenticalCalls (key upstreamValue : String) (ttl : Nat) :
    List Nat → List (String × CacheEntry) → Nat
  | [], _ => 0
  | t :: ts, cache =>
    let r := execCached cache key upstreamValue ttl t
    r.2.2 + runIdenticalCalls key upstreamValue ttl ts r.2.1

/- ---------------------------------------------------------------------------
C5: conversation memory.  Modelled from the spec: the memory manager lives in
src/sharebot/main_sharebot.py, which is not in the repository snapshot (only
HOW_TO_CHECK_MEMORY.md describing it is).  Spec basis: section 4.4 —
compression is triggered when total stored turns exceed 2 × max_turns and
replaces the summarized old turns with one synthetic assistant-authored turn,
keeping the recent turns verbatim; sections 3 and 8 require the stored length
to be ≤ max_turns + 1 right after a compression pass (summary + recent tail),
so the model keeps the most recent max_turns turns and summarizes the rest.
The summarizing language-model call is the `summarize` parameter.
--------------------------------------------------------------------------- -/

/-- A conversation turn {role, content} (timestamps play no role here). -/
structure Turn where
  role : String
  content : String
deriving Repr, DecidableEq

/-- Modelled from the spec: `CompressIfNeeded()` — when the stored length
exceeds `2 * maxTurns`, replace all but the most recent `maxTurns` turns by a
single synthetic assistant-authored summary turn; otherwise do nothing. -/
def compressIfNeeded (maxTurns : Nat) (summarize : List Turn → String)
    (mem : List Turn) : List Turn :=
  if 2 * maxTurns < mem.length then
    Turn.mk "assistant" (summarize (mem.take (mem.length - maxTurns)))
      :: mem.drop (mem.length - maxTurns)
  else mem

/-- Modelled from the spec: `Append(turn)` followed by `CompressIfNeeded()`,
the per-turn control flow of section 2. -/
def appendTurn (maxTurns : Nat) (summarize : List Turn → String)
    (mem : List Turn) (t : Turn) : List Turn :=
  compressIfNeeded maxTurns summarize (mem ++ [t])

/-- Modelled from the spec: the memory resulting from a sequence of appended
turns, starting empty, with `CompressIfNeeded` run after every append. -/
def buildMemory (maxTurns : Nat) (summarize : List Turn → String)
    (turns : List Turn) : List Turn :=
  turns.foldl (appendTurn maxTurns summarize) []

/- ---------------------------------------------------------------------------
C6: planner retries.  Modelled from the spec: `plan_tools` lives in
src/sharebot/agent/share_agent.py, which is not in the repository snapshot
(only the MVP-improvements document describing its retry mechanism is).  Spec
basis: section 4.1 — retry the full planning call up to `max_retries` (default
2) when every JSON-extraction strategy fails, and return an empty plan when
all `max_retries + 1` attempts remain unparseable.  `llm k` is the parsing
outcome of attempt `k` (`none` = every extraction strategy failed on that
attempt; the corrective instruction appended on retries is part of the prompt
and is absorbed into the attempt index).
--------------------------------------------------------------------------- -/

/-- A planned tool call {tool_name, input, origin} (spec section 3). -/
structure PlannedCall where
  tool_name : String
  input : List (String × String)
  origin : String

/-- Modelled from the spec: the attempt loop of `plan_tools`; `attempt` is the
index of the next attempt, the second argument the number of attempts still
allowed.  Returns the plan and the number of attempts made. -/
def planAttempts (llm : Nat → Option (List PlannedCall)) :
    Nat → Nat → List PlannedCall × Nat
  | _, 0 => ([], 0)
  | attempt, remaining + 1 =>
    match llm attempt with
    | some plan => (plan, 1)
    | none =>
      let r := planAttempts llm (attempt + 1) remaining
      (r.1, r.2 + 1)

/-- Modelled from the spec: `plan_tools` makes the initial attempt plus up to
`maxRetries` retries and never raises — it totally returns a (possibly empty)
plan together with the number of attempts made. -/
def plan_tools (maxRetries : Nat) (llm : Nat → Option (List PlannedCall)) :
    List PlannedCall × Nat :=
  planAttempts llm 0 (maxRetries + 1)

/- ---------------------------------------------------------------------------
C3: session store.  Modelled from the in-repo documentation: store.py /
manager.py are not in the repository snapshot; README_SESSION_TESTING.md
documents the record shape and that the store keeps ONE session per file (the
file structure does not support multiple users in one file), the whole file
being rewritten on save.
--------------------------------------------------------------------------- -/

/-- A session record as documented in README_SESSION_TESTING.md (the `meta`
map is omitted). -/
structure SessionRecord where
  user_id : String
  provider : String
  cookie : String
  created_at : Nat
  last_validated_at : Nat
  status : String
deriving Repr, DecidableEq

/-- Modelled from README_SESSION_TESTING.md: the contents of the single
session.json file — at most one record, regardless of user. -/
def SessionStore : Type := Option SessionRecord

/-- Modelled from README_SESSION_TESTING.md: saving rewrites the single file
with the new record, whatever was stored before. -/
def saveSession (_store : SessionStore) (r : SessionRecord) : SessionStore :=
  some r

/-- Modelled from README_SESSION_TESTING.md: loading reads the single file. -/
def loadSession (store : SessionStore) : Option SessionRecord := store

/- ===========================================================================
LEMMAS AND THEOREMS
=========================================================================== -/

/- --------------------------- C1 ------------------------------------------ -/

lemma processLines_shape (parse : String → Option SSEData) :
    ∀ lines : List String,
      (∃ (cs : List String) (t : StreamEvent),
          processLines parse lines = (cs.map StreamEvent.chunk ++ [t], true)
          ∧ isTerminal t = true)
      ∨ (∃ cs : List String,
          processLines parse lines = (cs.map StreamEvent.chunk, false)) := by
  intro lines
  induction lines with
  | nil => exact Or.inr ⟨[], rfl⟩
  | cons line rest ih =>
    by_cases hs : line.startsWith "data: "
    · cases hp : parse (line.drop 6) with
      | none =>
        simpa [processLines, hs, hp] using ih
      | some d =>
        by_cases he : jsStrTruthy d.error
        · exact Or.inl ⟨[], StreamEvent.errorEvt (d.error.getD ""),
            by simp [processLines, hs, hp, he], rfl⟩
        · by_cases hd : d.done
          · exact Or.inl ⟨[], StreamEvent.complete,
              by simp [processLines, hs, hp, he, hd], rfl⟩
          · by_cases hc : jsStrTruthy d.content
            · rcases ih with ⟨cs, t, hr, ht⟩ | ⟨cs, hr⟩
              · refine Or.inl ⟨d.content.getD "" :: cs, t, ?_, ht⟩
                simp [processLines, hs, hp, he, hd, hc, hr]
              · refine Or.inr ⟨d.content.getD "" :: cs, ?_⟩
                simp [processLines, hs, hp, he, hd, hc, hr]
            · simpa [processLines, hs, hp, he, hd, hc] using ih
    · simpa [processLines, hs] using ih

lemma streamLoop_shape (parse : String → Option SSEData) :
    ∀ (reads : List String) (buffer : String),
      ∃ (cs : List String) (t : StreamEvent),
        streamLoop parse reads buffer = cs.map StreamEvent.chunk ++ [t]
        ∧ isTerminal t = true := by
  intro reads
  induction reads with
  | nil => exact fun _ => ⟨[], StreamEvent.complete, rfl, rfl⟩
  | cons v rest ih =>
    intro buffer
    rcases processLines_shape parse ((buffer ++ v).splitOn "\n").dropLast with
      ⟨cs, t, hr, ht⟩ | ⟨cs, hr⟩
    · exact ⟨cs, t, by simp [streamLoop, hr], ht⟩
    · rcases ih (((buffer ++ v).splitOn "\n").getLastD "") with ⟨cs2, t, hr2, ht⟩
      exact ⟨cs ++ cs2, t,
        by simp [streamLoop, hr, List.getLastD_eq_getLast?] at hr2 ⊢; simp [hr2], ht⟩

/-- C1: every stream consumed by `portfolioChatbotStream` produces a callback
trace consisting of zero or more onChunk content events followed by exactly one
terminal callback (onComplete or onError), after which nothing further is
emitted: the consumer always receives a terminal signal and never a content
chunk after it. -/
theorem portfolioChatbotStream_one_terminal (ok : Bool) (status : Nat)
    (errorBody : Option String) (parse : String → Option SSEData)
    (reads : List String) :
    ∃ (cs : List String) (t : StreamEvent),
      portfolioChatbotStream ok status errorBody parse reads
        = cs.map StreamEvent.chunk ++ [t] ∧ isTerminal t = true := by
  by_cases h : ok
  · rcases streamLoop_shape parse reads "" with ⟨cs, t, hr, ht⟩
    exact ⟨cs, t, by simp [portfolioChatbotStream, h, hr], ht⟩
  · exact ⟨[], StreamEvent.errorEvt (serverErrorMessage status errorBody),
      by simp [portfolioChatbotStream, h], rfl⟩

/- --------------------------- C7 ------------------------------------------ -/

lemma getField_some_jobj (v : JsValue) (k : String) (w : JsValue)
    (h : getField v k = some w) : ∃ fields, v = JsValue.jobj fields := by
  cases v <;> simp [getField] at h
  exact ⟨_, rfl⟩

lemma isStringField_jsTruthy (v : JsValue) (k : String)
    (h : isStringField v k = true) : jsTruthy v = true := by
  unfold isStringField at h
  cases hg : getField v k with
  | none => rw [hg] at h; simp at h
  | some w =>
    rcases getField_some_jobj v k w hg with ⟨fields, rfl⟩
    rfl

/-- C7: `marketChatbotSync` resolves with the parsed server object exactly when
the HTTP reply is ok and the parsed body carries a string `response` field; the
resolved value is that parsed body; in every other case it throws (there is no
third outcome). -/
theorem marketChatbotSync_spec (reply : SyncReply) :
    ((∃ d, marketChatbotSync reply = SyncOutcome.success d) ↔
      (reply.ok = true ∧
        ∃ d, reply.body = Except.ok d ∧ isStringField d "response" = true))
    ∧ (∀ d, marketChatbotSync reply = SyncOutcome.success d →
        reply.body = Except.ok d ∧ isStringField d "response" = true)
    ∧ ((∀ d, marketChatbotSync reply ≠ SyncOutcome.success d) →
        ∃ m, marketChatbotSync reply = SyncOutcome.thrown m) := by
  refine ⟨⟨?_, ?_⟩, ?_, ?_⟩
  · rintro ⟨d, hd⟩
    unfold marketChatbotSync at hd
    by_cases hok : reply.ok = false
    · simp [hok] at hd
    · cases hb : reply.body with
      | error m => simp [hok, hb] at hd
      | ok data =>
        simp only [hok, if_false, hb] at hd
        by_cases hv : !jsTruthy data || !isStringField data "response"
        · simp [hv] at hd
        · simp only [hv, if_false] at hd
          cases hd
          simp only [Bool.or_eq_true, Bool.not_eq_true'] at hv
          push_neg at hv
          refine ⟨by simpa using hok, d, rfl, ?_⟩
          simpa using hv.2
  · rintro ⟨hok, d, hb, hf⟩
    refine ⟨d, ?_⟩
    have ht := isStringField_jsTruthy d "response" hf
    simp [marketChatbotSync, hok, hb, ht, hf]
  · intro d hd
    unfold marketChatbotSync at hd
    by_cases hok : reply.ok = false
    · simp [hok] at hd
    · cases hb : reply.body with
      | error m => simp [hok, hb] at hd
      | ok data =>
        simp only [hok, if_false, hb] at hd
        by_cases hv : !jsTruthy data || !isStringField data "response"
        · simp [hv] at hd
        · simp only [hv, if_false] at hd
          cases hd
          simp only [Bool.or_eq_true, Bool.not_eq_true'] at hv
          push_neg at hv
          exact ⟨by simp [hb], by simpa using hv.2⟩
  · intro h
    cases ho : marketChatbotSync reply with
    | success d => exact absurd ho (h d)
    | thrown m => exact ⟨m, rfl⟩

/-- Witness for C7: a concrete ok reply whose body is `{response: "hi"}`
resolves successfully. -/
theorem marketChatbotSync_spec_witness :
    ∃ d, marketChatbotSync
        ⟨true, 200, none, Except.ok (JsValue.jobj [("response", JsValue.jstr "hi")])⟩
        = SyncOutcome.success d :=
  (marketChatbotSync_spec
      ⟨true, 200, none, Except.ok (JsValue.jobj [("response", JsValue.jstr "hi")])⟩).1.mpr
    ⟨rfl, JsValue.jobj [("response", JsValue.jstr "hi")], rfl, rfl⟩

/- --------------------------- C2 ------------------------------------------ -/

set_option maxRecDepth 8192 in
/-- Counterexample to C2: for a failed HTTP exchange with status 500 and raw
server body `ValueError: boom`, the text appended to the market chat
transcript (the friendly message around the thrown `e.message`) contains both
the raw server response body and the HTTP status code. -/
theorem friendlyMarketMessage_leaks_payload :
    List.IsInfix "ValueError: boom".data
      (friendlyMarketMessage (serverErrorMessage 500 (some "ValueError: boom"))).data
    ∧ List.IsInfix "500".data
      (friendlyMarketMessage (serverErrorMessage 500 (some "ValueError: boom"))).data := by
  decide

/-- C2 (amended): every failure surfaced by the market chat front end starts
with the fixed friendly sentence, but the error message is appended verbatim;
for an HTTP failure with a non-empty body the transcript text therefore
embeds the raw server response body and the HTTP status code. -/
theorem friendlyMarketMessage_embeds_cause (status : Nat) (body : String)
    (h : body ≠ "") :
    (∃ tail, friendlyMarketMessage (serverErrorMessage status (some body))
        = "Sorry, something went wrong while contacting the market assistant. " ++ tail)
    ∧ List.IsInfix body.data
        (friendlyMarketMessage (serverErrorMessage status (some body))).data
    ∧ List.IsInfix (toString status).data
        (friendlyMarketMessage (serverErrorMessage status (some body))).data := by
  have hmsg : friendlyMarketMessage (serverErrorMessage status (some body))
      = ("Sorry, something went wrong while contacting the market assistant. "
          ++ ("Server error " ++ toString status)) ++ (": " ++ body) := by
    unfold friendlyMarketMessage serverErrorMessage
    simp [h, String.append_assoc]
  refine ⟨⟨serverErrorMessage status (some body), rfl⟩, ?_, ?_⟩
  · rw [hmsg]
    refine ⟨("Sorry, something went wrong while contacting the market assistant. "
        ++ ("Server error " ++ toString status)).data ++ (": ").data, [], ?_⟩
    simp [String.data_append]
  · rw [hmsg]
    refine ⟨("Sorry, something went wrong while contacting the market assistant. "
        ++ "Server error ").data, (": " ++ body).data, ?_⟩
    simp [String.data_append]

/-- Witness for the amended C2 at status 500 and body `boom`. -/
theorem friendlyMarketMessage_embeds_cause_witness :
    ("boom" : String) ≠ ""
    ∧ ((∃ tail, friendlyMarketMessage (serverErrorMessage 500 (some "boom"))
          = "Sorry, something went wrong while contacting the market assistant. " ++ tail)
      ∧ List.IsInfix "boom".data
          (friendlyMarketMessage (serverErrorMessage 500 (some "boom"))).data
      ∧ List.IsInfix (toString 500).data
          (friendlyMarketMessage (serverErrorMessage 500 (some "boom"))).data) :=
  ⟨by decide, friendlyMarketMessage_embeds_cause 500 "boom" (by decide)⟩


/- --------------------------- C8 ------------------------------------------ -/

/-- C8: for an edit of the message at a valid index `i`, the transcript is
truncated to its first `i + 1` messages: every message before `i` is
unchanged, the message at `i` keeps its role but carries the edited text and
the fresh timestamp, and every message after `i` is gone. -/
theorem handleEdit_truncates (msgs : List Msg) (index : Nat) (newText : String)
    (now : Nat) (h : index < msgs.length) :
    (handleEditTranscript msgs index newText now).length = index + 1
    ∧ (∀ j, j < index → (handleEditTranscript msgs index newText now)[j]? = msgs[j]?)
    ∧ (handleEditTranscript msgs index newText now)[index]? =
        some { msgs.getD index (Msg.mk "" "" 0) with text := newText, timestamp := now } := by
  have hlen : (msgs.take (index + 1)).length = index + 1 := by
    rw [List.length_take]
    omega
  refine ⟨?_, ?_, ?_⟩
  · unfold handleEditTranscript
    rw [List.length_set, hlen]
  · intro j hj
    unfold handleEditTranscript
    rw [List.getElem?_set_ne (by omega)]
    exact List.getElem?_take_of_lt (by omega)
  · unfold handleEditTranscript
    have hidx : index < (msgs.take (index + 1)).length := by omega
    have hgd : (msgs.take (index + 1)).getD index (Msg.mk "" "" 0)
        = msgs.getD index (Msg.mk "" "" 0) := by
      rw [List.getD_eq_getElem?_getD, List.getD_eq_getElem?_getD,
        List.getElem?_take_of_lt (by omega)]
    rw [List.getElem?_set_self hidx, hgd]

/-- Witness for C8: editing the first message of a two-message transcript. -/
theorem handleEdit_truncates_witness :
    0 < ([Msg.mk "user" "a" 0, Msg.mk "bot" "b" 1] : List Msg).length
    ∧ ((handleEditTranscript [Msg.mk "user" "a" 0, Msg.mk "bot" "b" 1] 0 "x" 5).length
          = 0 + 1
      ∧ (∀ j, j < 0 →
          (handleEditTranscript [Msg.mk "user" "a" 0, Msg.mk "bot" "b" 1] 0 "x" 5)[j]?
            = ([Msg.mk "user" "a" 0, Msg.mk "bot" "b" 1] : List Msg)[j]?)
      ∧ (handleEditTranscript [Msg.mk "user" "a" 0, Msg.mk "bot" "b" 1] 0 "x" 5)[0]?
          = some { ([Msg.mk "user" "a" 0, Msg.mk "bot" "b" 1] : List Msg).getD 0
                      (Msg.mk "" "" 0) with
                    text := "x", timestamp := 5 }) :=
  ⟨by decide, handleEdit_truncates [Msg.mk "user" "a" 0, Msg.mk "bot" "b" 1] 0 "x" 5
    (by decide)⟩

/- --------------------------- C9 ------------------------------------------ -/

lemma botReply_fallback (data : JsValue)
    (h : match getField data "response" with
         | some (JsValue.jstr s) => jsTrim s = ""
         | _ => True) : botReply data = fallbackReply := by
  unfold botReply
  by_cases ht : jsTruthy data
  · simp only [ht, if_true]
    cases hg : getField data "response" with
    | none => simp [hg]
    | some w =>
      cases w with
      | jstr s =>
        rw [hg] at h
        simp [hg, h]
      | jnull => simp [hg]
      | jbool b => simp [hg]
      | jnum n => simp [hg]
      | jarr es => simp [hg]
      | jobj fs => simp [hg]
  · simp [ht]

lemma fallbackReply_ne_empty : fallbackReply ≠ "" := by decide

lemma friendlyMarketMessage_ne_empty (m : String) :
    friendlyMarketMessage m ≠ "" := by
  intro hc
  have hl := congrArg String.length hc
  rw [friendlyMarketMessage, String.length_append] at hl
  have h67 :
      ("Sorry, something went wrong while contacting the market assistant. ").length
        = 67 := by
    decide
  rw [h67] at hl
  simp at hl

lemma botReply_ne_empty (data : JsValue) : botReply data ≠ "" := by
  unfold botReply
  by_cases ht : jsTruthy data
  · simp only [ht, if_true]
    cases hg : getField data "response" with
    | none => simp [fallbackReply_ne_empty]
    | some w =>
      cases w with
      | jstr s =>
        by_cases hs : jsTrim s = ""
        · simp [hs, fallbackReply_ne_empty]
        · have hne : s ≠ "" := fun hc => hs (by rw [hc]; rfl)
          simpa [hg, hs] using hne
      | jnull => simp [fallbackReply_ne_empty]
      | jbool b => simp [fallbackReply_ne_empty]
      | jnum n => simp [fallbackReply_ne_empty]
      | jarr es => simp [fallbackReply_ne_empty]
      | jobj fs => simp [fallbackReply_ne_empty]
  · simp [ht, fallbackReply_ne_empty]

/-- C9: for every completed send in the market chat page, the bot text is
never empty, it is the fixed fallback sentence whenever the server `response`
field is absent, not a string, or whitespace-only, and the send appends
exactly two messages — the user message and exactly one bot message. -/
theorem handleSend_appends_one_nonempty_bot (msgs : List Msg) (q : String)
    (outcome : SyncOutcome) (t1 t2 : Nat) :
    handleSendBotText outcome ≠ ""
    ∧ (∀ data, outcome = SyncOutcome.success data →
        (match getField data "response" with
         | some (JsValue.jstr s) => jsTrim s = ""
         | _ => True) → handleSendBotText outcome = fallbackReply)
    ∧ (handleSendTranscript msgs q outcome t1 t2).length = msgs.length + 2
    ∧ ((handleSendTranscript msgs q outcome t1 t2).drop msgs.length).filter
        (fun m => m.role == "bot") = [⟨"bot", handleSendBotText outcome, t2⟩] := by
  refine ⟨?_, ?_, ?_, ?_⟩
  · cases outcome with
    | success data => exact botReply_ne_empty data
    | thrown m => exact friendlyMarketMessage_ne_empty m
  · intro data heq hmatch
    subst heq
    exact botReply_fallback data hmatch
  · unfold handleSendTranscript
    simp
  · unfold handleSendTranscript
    rw [List.append_assoc, List.drop_left]
    rfl

/-- Witness for C9: a send whose server reply is `{response: " "}` (a
whitespace-only response). -/
theorem handleSend_appends_one_nonempty_bot_witness :
    handleSendBotText
        (SyncOutcome.success (JsValue.jobj [("response", JsValue.jstr " ")])) ≠ ""
    ∧ (∀ data,
        SyncOutcome.success (JsValue.jobj [("response", JsValue.jstr " ")])
          = SyncOutcome.success data →
        (match getField data "response" with
         | some (JsValue.jstr s) => jsTrim s = ""
         | _ => True) →
        handleSendBotText
            (SyncOutcome.success (JsValue.jobj [("response", JsValue.jstr " ")]))
          = fallbackReply)
    ∧ (handleSendTranscript [] "hi"
        (SyncOutcome.success (JsValue.jobj [("response", JsValue.jstr " ")])) 0 1).length
        = ([] : List Msg).length + 2
    ∧ ((handleSendTranscript [] "hi"
          (SyncOutcome.success (JsValue.jobj [("response", JsValue.jstr " ")])) 0 1).drop
          ([] : List Msg).length).filter (fun m => m.role == "bot")
        = [⟨"bot", handleSendBotText
              (SyncOutcome.success (JsValue.jobj [("response", JsValue.jstr " ")])), 1⟩] :=
  handleSend_appends_one_nonempty_bot [] "hi"
    (SyncOutcome.success (JsValue.jobj [("response", JsValue.jstr " ")])) 0 1

/- --------------------------- C10 ----------------------------------------- -/

/-- C10: the ChatInput submit handler invokes onSend exactly when the trimmed
text is non-empty and loading is false; the argument passed is the trimmed
text, and the input value is reset to the empty string on a successful send —
whitespace-only input never reaches onSend. -/
theorem submitChatInput_spec (st : ChatInputState) :
    ((submitChatInput st).1 = none ↔ (jsTrim st.text = "" ∨ st.loading = true))
    ∧ (∀ x, (submitChatInput st).1 = some x →
        x = jsTrim st.text ∧ jsTrim st.text ≠ "" ∧ st.loading = false
          ∧ (submitChatInput st).2.text = "")
    ∧ ((jsTrim st.text ≠ "" ∧ st.loading = false) →
        (submitChatInput st).1 = some (jsTrim st.text)
          ∧ (submitChatInput st).2.text = "") := by
  by_cases h1 : jsTrim st.text = "" <;> by_cases h2 : st.loading <;>
    simp [submitChatInput, h1, h2]

/-- Witness for C10: submitting the text value `  hi  ` while not loading. -/
theorem submitChatInput_spec_witness :
    ((submitChatInput (ChatInputState.mk "  hi  " false)).1 = none ↔
      (jsTrim "  hi  " = "" ∨ false = true))
    ∧ (∀ x, (submitChatInput (ChatInputState.mk "  hi  " false)).1 = some x →
        x = jsTrim "  hi  " ∧ jsTrim "  hi  " ≠ "" ∧ false = false
          ∧ (submitChatInput (ChatInputState.mk "  hi  " false)).2.text = "")
    ∧ ((jsTrim "  hi  " ≠ "" ∧ false = false) →
        (submitChatInput (ChatInputState.mk "  hi  " false)).1 = some (jsTrim "  hi  ")
          ∧ (submitChatInput (ChatInputState.mk "  hi  " false)).2.text = "") :=
  submitChatInput_spec (ChatInputState.mk "  hi  " false)

/- --------------------------- C4 ------------------------------------------ -/

lemma runIdenticalCalls_all_hits (key v : String) (ttl t1 : Nat) :
    ∀ ts : List Nat, (∀ t ∈ ts, t < t1 + ttl) →
      runIdenticalCalls key v ttl ts [(key, CacheEntry.mk v (t1 + ttl))] = 0 := by
  intro ts
  induction ts with
  | nil => intro _; rfl
  | cons t ts ih =>
    intro h
    have ht : t < t1 + ttl := h t (by simp)
    have hexec : execCached [(key, CacheEntry.mk v (t1 + ttl))] key v ttl t
        = (v, [(key, CacheEntry.mk v (t1 + ttl))], 0) := by
      simp [execCached, cacheGet, List.lookup, ht]
    rw [runIdenticalCalls, hexec]
    simpa using ih (fun t2 ht2 => h t2 (by simp [ht2]))

/-- C4: for identical idempotent calls starting from an empty cache, the first
call at time `t1` invokes the upstream tool and every identical call inside
the TTL window `[t1, t1 + ttl)` is served from the cache, so the upstream
count over the whole window stays 1; an identical call at a time `t3` at or
past `t1 + ttl` re-invokes the upstream tool. -/
theorem toolResultCache_ttl (key v : String) (ttl t1 t3 : Nat) (ts : List Nat)
    (hts : ∀ t ∈ ts, t1 ≤ t ∧ t < t1 + ttl) (h3 : t1 + ttl ≤ t3) :
    runIdenticalCalls key v ttl (t1 :: ts) [] = 1
    ∧ runIdenticalCalls key v ttl [t1, t3] [] = 2 := by
  have hfirst : execCached [] key v ttl t1
      = (v, [(key, CacheEntry.mk v (t1 + ttl))], 1) := by
    simp [execCached, cacheGet, List.lookup, cachePut]
  constructor
  · rw [runIdenticalCalls, hfirst]
    have := runIdenticalCalls_all_hits key v ttl t1 ts (fun t ht => (hts t ht).2)
    simpa using this
  · have h2 : ¬ t3 < t1 + ttl := by omega
    rw [runIdenticalCalls, hfirst]
    show 1 + runIdenticalCalls key v ttl [t3] [(key, CacheEntry.mk v (t1 + ttl))] = 2
    rw [runIdenticalCalls]
    simp [execCached, cacheGet, List.lookup, h2, cachePut, runIdenticalCalls]

/-- Witness for C4: the cached query at times 0 and 30 with a 60-second TTL
hits upstream once; re-issued at time 60 it hits upstream again. -/
theorem toolResultCache_ttl_witness :
    runIdenticalCalls "get_stock_data:TCS" "3500" 60 (0 :: [30]) [] = 1
    ∧ runIdenticalCalls "get_stock_data:TCS" "3500" 60 [0, 60] [] = 2 :=
  toolResultCache_ttl "get_stock_data:TCS" "3500" 60 0 60 [30]
    (by intro t ht; simp at ht; omega) (by omega)

/- --------------------------- C5 ------------------------------------------ -/

/-- Counterexample to C5: with `max_turns = 2`, after four appended turns
(each append followed by a `CompressIfNeeded` call) the stored memory holds 4
turns — compression has not triggered (4 is not greater than 2 × 2), and 4
exceeds `max_turns + 1 = 3`; so the length bound `≤ max_turns + 1` does not
hold after every `CompressIfNeeded` call, only after one that compresses. -/
theorem memory_not_bounded_by_maxTurns_succ :
    buildMemory 2 (fun _ => "summary")
        [Turn.mk "user" "q1", Turn.mk "assistant" "a1",
         Turn.mk "user" "q2", Turn.mk "assistant" "a2"]
      = [Turn.mk "user" "q1", Turn.mk "assistant" "a1",
         Turn.mk "user" "q2", Turn.mk "assistant" "a2"]
    ∧ compressIfNeeded 2 (fun _ => "summary")
        [Turn.mk "user" "q1", Turn.mk "assistant" "a1",
         Turn.mk "user" "q2", Turn.mk "assistant" "a2"]
      = [Turn.mk "user" "q1", Turn.mk "assistant" "a1",
         Turn.mk "user" "q2", Turn.mk "assistant" "a2"]
    ∧ ¬((compressIfNeeded 2 (fun _ => "summary")
        [Turn.mk "user" "q1", Turn.mk "assistant" "a1",
         Turn.mk "user" "q2", Turn.mk "assistant" "a2"]).length ≤ 2 + 1) := by
  refine ⟨rfl, rfl, ?_⟩
  decide

lemma buildMemory_invariant (maxTurns : Nat) (summarize : List Turn → String)
    (hm : 1 ≤ maxTurns) :
    ∀ (turns : List Turn) (mem : List Turn), mem.length ≤ 2 * maxTurns →
      (turns.foldl (appendTurn maxTurns summarize) mem).length ≤ 2 * maxTurns := by
  intro turns
  induction turns with
  | nil => intro mem h; simpa using h
  | cons t ts ih =>
    intro mem h
    rw [List.foldl_cons]
    apply ih
    unfold appendTurn compressIfNeeded
    by_cases hc : 2 * maxTurns < (mem ++ [t]).length
    · simp only [hc, if_true, List.length_cons, List.length_drop]
      simp at hc ⊢
      omega
    · simp only [hc, if_false]
      simp at hc ⊢
      omega

/-- C5 (amended): a `CompressIfNeeded` call that actually compresses leaves
exactly `max_turns + 1` stored turns (one synthetic summary plus the recent
tail); compression is triggered only when the stored length exceeds
`2 × max_turns`; compression never drops the most recent turn (for
`max_turns ≥ 1`); and over any sequence of append-then-compress operations
from an empty memory the stored length is bounded by `2 × max_turns` — not by
`max_turns + 1`, since a call that does not trigger leaves memory unchanged. -/
theorem compressIfNeeded_spec (maxTurns : Nat) (summarize : List Turn → String)
    (mem : List Turn) (turns : List Turn) (hm : 1 ≤ maxTurns) :
    (2 * maxTurns < mem.length →
      (compressIfNeeded maxTurns summarize mem).length = maxTurns + 1)
    ∧ (compressIfNeeded maxTurns summarize mem ≠ mem → 2 * maxTurns < mem.length)
    ∧ (mem ≠ [] →
        (compressIfNeeded maxTurns summarize mem).getLast? = mem.getLast?)
    ∧ (buildMemory maxTurns summarize turns).length ≤ 2 * maxTurns := by
  refine ⟨?_, ?_, ?_, ?_⟩
  · intro hc
    simp only [compressIfNeeded, hc, if_true, List.length_cons, List.length_drop]
    omega
  · intro hne
    by_contra hnot
    exact hne (by simp [compressIfNeeded, hnot])
  · intro hmem
    by_cases hc : 2 * maxTurns < mem.length
    · have hdrop_ne : mem.drop (mem.length - maxTurns) ≠ [] := by
        have : (mem.drop (mem.length - maxTurns)).length = maxTurns := by
          rw [List.length_drop]
          omega
        intro hnil
        rw [hnil] at this
        simp at this
        omega
      have h1 : (Turn.mk "assistant" (summarize (mem.take (mem.length - maxTurns)))
            :: mem.drop (mem.length - maxTurns)).getLast?
          = (mem.drop (mem.length - maxTurns)).getLast? := by
        rw [show (Turn.mk "assistant" (summarize (mem.take (mem.length - maxTurns)))
              :: mem.drop (mem.length - maxTurns))
            = [Turn.mk "assistant" (summarize (mem.take (mem.length - maxTurns)))]
              ++ mem.drop (mem.length - maxTurns) from rfl]
        exact List.getLast?_append_of_ne_nil _ hdrop_ne
      have h2 : mem.getLast? = (mem.drop (mem.length - maxTurns)).getLast? := by
        conv_lhs => rw [← List.take_append_drop (mem.length - maxTurns) mem]
        exact List.getLast?_append_of_ne_nil _ hdrop_ne
      simp only [compressIfNeeded, hc, if_true]
      rw [h1, h2]
    · simp [compressIfNeeded, hc]
  · exact buildMemory_invariant maxTurns summarize hm turns [] (by simp)

/-- Witness for the amended C5: `max_turns = 1` with a three-turn memory (a
compressing call) and an empty append sequence. -/
theorem compressIfNeeded_spec_witness :
    1 ≤ 1
    ∧ ((2 * 1 < ([Turn.mk "user" "q1", Turn.mk "assistant" "a1",
          Turn.mk "user" "q2"] : List Turn).length →
        (compressIfNeeded 1 (fun _ => "s")
          [Turn.mk "user" "q1", Turn.mk "assistant" "a1",
           Turn.mk "user" "q2"]).length = 1 + 1)
      ∧ (compressIfNeeded 1 (fun _ => "s")
            [Turn.mk "user" "q1", Turn.mk "assistant" "a1", Turn.mk "user" "q2"]
          ≠ [Turn.mk "user" "q1", Turn.mk "assistant" "a1", Turn.mk "user" "q2"] →
          2 * 1 < ([Turn.mk "user" "q1", Turn.mk "assistant" "a1",
            Turn.mk "user" "q2"] : List Turn).length)
      ∧ (([Turn.mk "user" "q1", Turn.mk "assistant" "a1",
            Turn.mk "user" "q2"] : List Turn) ≠ [] →
          (compressIfNeeded 1 (fun _ => "s")
            [Turn.mk "user" "q1", Turn.mk "assistant" "a1",
             Turn.mk "user" "q2"]).getLast?
          = ([Turn.mk "user" "q1", Turn.mk "assistant" "a1",
              Turn.mk "user" "q2"] : List Turn).getLast?)
      ∧ (buildMemory 1 (fun _ => "s") []).length ≤ 2 * 1) :=
  ⟨by decide, compressIfNeeded_spec 1 (fun _ => "s")
    [Turn.mk "user" "q1", Turn.mk "assistant" "a1", Turn.mk "user" "q2"] []
    (by decide)⟩

/- --------------------------- C6 ------------------------------------------ -/

lemma planAttempts_all_fail (llm : Nat → Option (List PlannedCall)) :
    ∀ (n attempt : Nat), (∀ k, attempt ≤ k → k < attempt + n → llm k = none) →
      planAttempts llm attempt n = ([], n) := by
  intro n
  induction n with
  | zero => intro a _; rfl
  | succ n ih =>
    intro a h
    have ha : llm a = none := h a le_rfl (by omega)
    simp only [planAttempts, ha]
    rw [ih (a + 1) (fun k h1 h2 => h k (by omega) (by omega))]

/-- C6: when every planning attempt is unparseable (every JSON-extraction
strategy fails each time), `plan_tools` makes exactly `max_retries + 1`
attempts — the initial call plus `max_retries` retries — and returns the empty
plan; being a total function it never raises. -/
theorem plan_tools_all_unparseable (maxRetries : Nat)
    (llm : Nat → Option (List PlannedCall))
    (h : ∀ k, k ≤ maxRetries → llm k = none) :
    plan_tools maxRetries llm = ([], maxRetries + 1) := by
  unfold plan_tools
  exact planAttempts_all_fail llm (maxRetries + 1) 0 (fun k _ h2 => h k (by omega))

/-- Witness for C6: the default `max_retries = 2` with a model that always
returns malformed output — an empty plan after 3 attempts. -/
theorem plan_tools_all_unparseable_witness :
    plan_tools 2 (fun _ => none) = ([], 2 + 1) :=
  plan_tools_all_unparseable 2 (fun _ => none) (fun _ _ => rfl)

/- --------------------------- C3 ------------------------------------------ -/

/-- Counterexample to C3: the single-file session store is not keyed by
(user_id, provider) — after alice saves an ACTIVE session and bob then saves
one for the same provider, the store holds exactly bob's record; alice's
record (a different user_id) has been overwritten. -/
theorem sessionStore_overwrites_across_users :
    loadSession (saveSession (saveSession (none : SessionStore)
        (SessionRecord.mk "alice" "kite" "cookieA" 0 0 "ACTIVE"))
        (SessionRecord.mk "bob" "kite" "cookieB" 1 1 "ACTIVE"))
      = some (SessionRecord.mk "bob" "kite" "cookieB" 1 1 "ACTIVE")
    ∧ (SessionRecord.mk "bob" "kite" "cookieB" 1 1 "ACTIVE").user_id
        ≠ (SessionRecord.mk "alice" "kite" "cookieA" 0 0 "ACTIVE").user_id :=
  ⟨rfl, by decide⟩

/-- C3 (amended): the session store persists exactly one record at a time (the
single session.json file): a load after a save returns the record just saved,
and a save fully overwrites whatever was stored before, independent of the
(user_id, provider) key — so the store is durable but not multi-user keyed. -/
theorem saveSession_single_record (store : SessionStore) (r r2 : SessionRecord) :
    loadSession (saveSession store r) = some r
    ∧ saveSession (saveSession store r) r2 = saveSession store r2 :=
  ⟨rfl, rfl⟩
